import Mathlib

/-!
Verification of the problem5 CRUD service (Express + SQLite resource API).

The definitions below are a shallow embedding of the TypeScript source:
  * `ResourceService.getAll` / query building (services/resource.service.ts),
  * `ResourceService.update` / `create` and the SQLite schema defaults,
  * the Joi validation schemas and `validate` middleware (middleware/validation.ts),
  * the security pattern checks (utils/security.ts),
  * the controller id parsing (controllers/resource.controller.ts),
  * the fixed-window rate limiter configured in server.ts.

The SQLite table is a list of rows in rowid (insertion) order.  SQL text
values are Lean `String`s; `CURRENT_TIMESTAMP` values (format
`YYYY-MM-DD HH:MM:SS`) compare chronologically via lexicographic order.
An `ORDER BY created_at DESC` with no further key leaves the relative
order of equal keys unspecified, so the data query is modelled as a
relation: any permutation of the filtered rows that is sorted descending
by `created_at` is a possible result.
-/

namespace CrudService

/-- A row of the `resources` table (schema in config/database.ts). -/
structure Resource where
  id : Nat
  name : String
  description : String
  category : String
  status : String
  created_at : String
  updated_at : String
deriving DecidableEq, Repr

/-- The optional list filters (models/resource.model.ts, `ResourceFilters`). -/
structure ResourceFilters where
  name : Option String := none
  category : Option String := none
  status : Option String := none
  created_at : Option String := none
  search : Option String := none
deriving DecidableEq, Repr

/-- Lexicographic order on char lists; on the fixed-format
`YYYY-MM-DD HH:MM:SS` timestamp strings this coincides with
chronological order. -/
def lexLe : List Char → List Char → Bool
  | [], _ => true
  | _ :: _, [] => false
  | a :: as, b :: bs => a.toNat < b.toNat || (a.toNat == b.toNat && lexLe as bs)

/-- Timestamp comparison: `a` is at or before `b`. -/
def tsLe (a b : String) : Bool := lexLe a.data b.data

/-- SQLite `LIKE` is case-insensitive for ASCII letters only. -/
def charEqCI (a b : Char) : Bool := a.toLower == b.toLower

/-- SQLite `LIKE` pattern matching over char lists: `%` matches any run
(some suffix of the text must match the rest of the pattern), `_` any
single char, other chars match ASCII-case-insensitively. -/
def likeChars : List Char → List Char → Bool
  | [], s => s.isEmpty
  | '%' :: ps, s => s.tails.any (fun t => likeChars ps t)
  | _ :: _, [] => false
  | p :: ps, c :: cs => (p == '_' || charEqCI p c) && likeChars ps cs

def likeMatch (pat s : String) : Bool := likeChars pat.data s.data

/-- The code pushes the LIKE parameter: percent sign, value, percent sign. -/
def likePat (v : String) : String := "%" ++ v ++ "%"

/-- SQLite `DATE(x)` for a well-formed `YYYY-MM-DD[ HH:MM:SS]` text value:
the first ten characters. -/
def dateOf (s : String) : String := s.take 10

/-- One conjunct of the WHERE clause built by `ResourceService.getAll`. -/
inductive Cond where
  | nameLike (v : String)
  | categoryEq (v : String)
  | statusEq (v : String)
  | createdDate (v : String)
  | searchLike (v : String)
deriving DecidableEq, Repr

/-- Truth value of one WHERE conjunct on a row, with its bound parameter. -/
def condHolds (r : Resource) : Cond → Bool
  | .nameLike v => likeMatch (likePat v) r.name
  | .categoryEq v => r.category == v
  | .statusEq v => r.status == v
  | .createdDate v => dateOf r.created_at == dateOf v
  | .searchLike v => likeMatch (likePat v) r.name || likeMatch (likePat v) r.description

/-- JS truthiness of an optional string field: `if (filters?.name)` skips
both an absent and an empty-string value. -/
def strFilt : Option String → Option String
  | some s => if s.length == 0 then none else some s
  | none => none

/-- The WHERE clause of `getAll`, one conjunct per truthy filter field,
appended in source order.  The same clause is used by the count query and
the data query. -/
def buildConds (f : ResourceFilters) : List Cond :=
  (match strFilt f.name with | some v => [Cond.nameLike v] | none => [])
  ++ (match strFilt f.category with | some v => [Cond.categoryEq v] | none => [])
  ++ (match strFilt f.status with | some v => [Cond.statusEq v] | none => [])
  ++ (match strFilt f.created_at with | some v => [Cond.createdDate v] | none => [])
  ++ (match strFilt f.search with | some v => [Cond.searchLike v] | none => [])

/-- A row satisfies the WHERE clause (starting from `WHERE 1=1`). -/
def matchesFilters (f : ResourceFilters) (r : Resource) : Bool :=
  (buildConds f).all (condHolds r)

/-- Result of the count query: `SELECT COUNT(*) FROM resources WHERE ...`. -/
def countTotal (rows : List Resource) (f : ResourceFilters) : Nat :=
  (rows.filter (matchesFilters f)).length

/-- Predicate: `out` is a possible result of the data query with LIMIT/OFFSET removed:
a permutation of the rows matching the WHERE clause, sorted descending by
`created_at` (the query orders by `created_at DESC` with no tiebreaker, so
the relative order of rows with equal `created_at` is unspecified). -/
def fullScanResult (rows : List Resource) (f : ResourceFilters) (out : List Resource) : Prop :=
  out.Perm (rows.filter (matchesFilters f)) ∧
  out.Pairwise (fun a b => tsLe b.created_at a.created_at = true)

/-- The `pagination` object of the paginated response. -/
structure PageInfo where
  page : Nat
  limit : Nat
  total : Nat
  totalPages : Nat
  hasNext : Bool
  hasPrev : Bool
deriving DecidableEq, Repr

/-- Integer form of `Math.ceil(total / limit)` for naturals with `limit ≥ 1`. -/
def ceilJS (total limit : Nat) : Nat := (total + limit - 1) / limit

/-- JS `x || d` for numbers: `0` is falsy. -/
def jsOr (n d : Nat) : Nat := if n == 0 then d else n

def mkPageInfo (page limit total : Nat) : PageInfo :=
  { page := page, limit := limit, total := total,
    totalPages := ceilJS total limit,
    hasNext := decide (page < ceilJS total limit),
    hasPrev := decide (1 < page) }

/-- A paginated response of `getAll`. -/
structure PagedResult where
  data : List Resource
  pagination : PageInfo
deriving DecidableEq, Repr

/-- Predicate: `res` is a possible result of `ResourceService.getAll` (pagination
variant): the data query appends `LIMIT ? OFFSET ?` with
`offset = (page - 1) * limit`, and the pagination object is computed from
the count query over the same WHERE clause. -/
def getAllResult (rows : List Resource) (f : ResourceFilters) (page limit : Nat)
    (res : PagedResult) : Prop :=
  ∃ full, fullScanResult rows f full ∧
    res.data = (full.drop ((jsOr page 1 - 1) * jsOr limit 10)).take (jsOr limit 10) ∧
    res.pagination = mkPageInfo (jsOr page 1) (jsOr limit 10) (countTotal rows f)

/-! ### Store write operations -/

/-- Model of `UpdateResourceDTO`: all fields optional (models/resource.model.ts). -/
structure UpdateDTO where
  name : Option String := none
  description : Option String := none
  category : Option String := none
  status : Option String := none
deriving DecidableEq, Repr

/-- Number of supplied fields: `fields.length` in `ResourceService.update`
before `updated_at = CURRENT_TIMESTAMP` is appended (a field counts
whenever it is not `undefined`). -/
def updFieldCount (d : UpdateDTO) : Nat :=
  (if d.name.isSome then 1 else 0) + (if d.description.isSome then 1 else 0)
  + (if d.category.isSome then 1 else 0) + (if d.status.isSome then 1 else 0)

/-- Effect of the dynamic `UPDATE resources SET ... WHERE id = ?` statement
on one matching row: exactly the supplied columns are overwritten and
`updated_at` is set to `CURRENT_TIMESTAMP`. -/
def applyUpdate (r : Resource) (d : UpdateDTO) (now : String) : Resource :=
  { r with
    name := d.name.getD r.name,
    description := d.description.getD r.description,
    category := d.category.getD r.category,
    status := d.status.getD r.status,
    updated_at := now }

/-- SQL read `SELECT * FROM resources WHERE id = ?` — the first matching row. -/
def getById (rows : List Resource) (i : Nat) : Option Resource :=
  rows.find? (fun r => r.id == i)

/-- Model of `ResourceService.update`: read the existing row (`null` when absent);
with zero supplied fields return the existing row unchanged without
issuing a statement; otherwise run the UPDATE and re-read the row.
Returns the new table together with the returned record. -/
def updateRes (rows : List Resource) (i : Nat) (d : UpdateDTO) (now : String) :
    List Resource × Option Resource :=
  match getById rows i with
  | none => (rows, none)
  | some existing =>
    if updFieldCount d == 0 then (rows, some existing)
    else
      let rows2 := rows.map (fun r => if r.id == i then applyUpdate r d now else r)
      (rows2, getById rows2 i)

/-- Model of `CreateResourceDTO`: three required fields, optional status. -/
structure CreateDTO where
  name : String
  description : String
  category : String
  status : Option String := none
deriving DecidableEq, Repr

/-- Database state: the `resources` table in rowid order plus the next
AUTOINCREMENT id. -/
structure DBState where
  rows : List Resource
  nextId : Nat
deriving DecidableEq, Repr

/-- Model of `ResourceService.create`: `INSERT INTO resources (name, description,
category, status) VALUES (?, ?, ?, ?)` with `status` defaulted to
`active` by the destructuring; `created_at` and `updated_at` take the
schema default `CURRENT_TIMESTAMP`; the created row is read back by its
store-assigned id. -/
def newRow (st : DBState) (d : CreateDTO) (now : String) : Resource :=
  { id := st.nextId, name := d.name, description := d.description,
    category := d.category, status := d.status.getD "active",
    created_at := now, updated_at := now }

def createRes (st : DBState) (d : CreateDTO) (now : String) : DBState × Resource :=
  ({ rows := st.rows ++ [newRow st d now], nextId := st.nextId + 1 }, newRow st d now)

/-- SQL statement `DELETE FROM resources WHERE id = ?`. -/
def deleteRes (rows : List Resource) (i : Nat) : List Resource :=
  rows.filter (fun r => !(r.id == i))

/-- A store-level operation, as reachable through the service. -/
inductive Op where
  | create (d : CreateDTO)
  | update (i : Nat) (d : UpdateDTO)
  | del (i : Nat)
deriving DecidableEq, Repr

/-- One operation executed at clock reading `now`. -/
def opStep (st : DBState) (o : Op) (now : String) : DBState :=
  match o with
  | .create d => (createRes st d now).1
  | .update i d => { st with rows := (updateRes st.rows i d now).1 }
  | .del i => { st with rows := deleteRes st.rows i }

/-- The empty freshly-initialized database (AUTOINCREMENT starts at 1). -/
def initDB : DBState := { rows := [], nextId := 1 }

/-- Run a list of timestamped operations. -/
def runTrace (st : DBState) : List (Op × String) → DBState
  | [] => st
  | (o, t) :: rest => runTrace (opStep st o t) rest

/-- The clock readings of a trace are non-decreasing, starting from `t0`
(`CURRENT_TIMESTAMP` is monotone during normal operation). -/
def monoTimes (t0 : String) : List (Op × String) → Prop
  | [] => True
  | (_, t) :: rest => tsLe t0 t = true ∧ monoTimes t rest

/-! ### Security filter (utils/security.ts) -/

/-- JS regex `\w`: ASCII letters, digits, underscore. -/
def isWordChar (c : Char) : Bool := c.isAlphanum || c == '_'

/-- JS whitespace (`\s`, and the characters skipped by `parseInt`),
restricted to ASCII: space, tab, LF, VT, FF, CR. -/
def isJsWs (c : Char) : Bool :=
  c.toNat == 32 || c.toNat == 9 || c.toNat == 10 || c.toNat == 11
  || c.toNat == 12 || c.toNat == 13

/-- JS line terminators, which `.` does not match. -/
def isLineTerm (c : Char) : Bool :=
  c == '\n' || c == '\r' || c.toNat == 0x2028 || c.toNat == 0x2029

/-- The pattern occurs at index `i` of `s` (exact characters). -/
def matchAt (s pat : List Char) (i : Nat) : Bool :=
  (s.drop i).take pat.length == pat

/-- The pattern occurs at index `i` of `s`, ASCII-case-insensitively
(the `i` regex flag). -/
def matchAtCI (s pat : List Char) (i : Nat) : Bool :=
  ((s.drop i).take pat.length).map Char.toLower == pat.map Char.toLower

def containsPat (s pat : List Char) : Bool :=
  (List.range (s.length + 1)).any (fun i => matchAt s pat i)

def containsPatCI (s pat : List Char) : Bool :=
  (List.range (s.length + 1)).any (fun i => matchAtCI s pat i)

/-- The char list starts with a non-word character (or is empty): used for
regex `\b` word boundaries next to a word character. -/
def headNonWord : List Char → Bool
  | [] => true
  | c :: _ => !isWordChar c

/-- A `\b pat \b` occurrence at index `i` (for patterns whose first and
last characters are word characters, as all the SQL keywords are). -/
def wordAtCI (s pat : List Char) (i : Nat) : Bool :=
  matchAtCI s pat i
  && (i == 0 || headNonWord (s.drop (i - 1)))
  && headNonWord (s.drop (i + pat.length))

def containsWordCI (s pat : List Char) : Bool :=
  (List.range (s.length + 1)).any (fun i => wordAtCI s pat i)

/-- The alternation of `/\b(SELECT|INSERT|UPDATE|DELETE|DROP|CREATE|ALTER|
EXEC|EXECUTE|UNION|DECLARE)\b/gi`. -/
def sqlKeywords : List String :=
  ["SELECT", "INSERT", "UPDATE", "DELETE", "DROP", "CREATE", "ALTER",
   "EXEC", "EXECUTE", "UNION", "DECLARE"]

def sqlKeywordCheck (s : String) : Bool :=
  sqlKeywords.any (fun w => containsWordCI s.data w.data)

/-- Regex matching the SQL comment tokens: double dash, hash, slash-star,
star-slash. -/
def sqlCommentCheck (s : String) : Bool :=
  containsPat s.data ['-', '-'] || containsPat s.data ['#']
  || containsPat s.data ['/', '*'] || containsPat s.data ['*', '/']

/-- Regex matching any single quote, double quote, semicolon or backslash
(character codes 39, 34, 59 and 92). -/
def sqlQuoteCheck (s : String) : Bool :=
  s.data.any (fun c => c == Char.ofNat 39 || c == '"' || c == ';' || c == Char.ofNat 92)

/-- An `=` occurs at or after the head, with no line terminator before it
(the `.*?=` part of the OR/AND pattern; `.` does not cross lines). -/
def eqBeforeNL : List Char → Bool
  | [] => false
  | c :: cs => c == '=' || (!isLineTerm c && eqBeforeNL cs)

/-- Regex: word-bounded OR or AND followed by an equals sign on the same
line. -/
def orAndEqCheck (s : List Char) : Bool :=
  (List.range (s.length + 1)).any (fun i =>
    (wordAtCI s ['o', 'r'] i && eqBeforeNL (s.drop (i + 2))) ||
    (wordAtCI s ['a', 'n', 'd'] i && eqBeforeNL (s.drop (i + 3))))

def containsSQLInjection (s : String) : Bool :=
  sqlKeywordCheck s || sqlCommentCheck s || sqlQuoteCheck s || orAndEqCheck s.data

def openScript : List Char := ['<', 's', 'c', 'r', 'i', 'p', 't']

def closeScript : List Char := ['<', '/', 's', 'c', 'r', 'i', 'p', 't', '>']

/-- Regex for a script tag block: matches iff
`<script` occurs with a word boundary after it and `</script>` occurs at
or after that point (the middle consumes any characters up to the first
close tag). -/
def scriptTagCheck (s : List Char) : Bool :=
  (List.range (s.length + 1)).any (fun i =>
    matchAtCI s openScript i
    && headNonWord (s.drop (i + 7))
    && (List.range (s.length + 1)).any (fun j =>
        decide (i + 7 ≤ j) && matchAtCI s closeScript j))

/-- Pattern tail: an equals sign possibly preceded by whitespace. -/
def wsThenEq : List Char → Bool
  | [] => false
  | c :: cs => c == '=' || (isJsWs c && wsThenEq cs)

/-- Pattern tail: at least one word character, then optional whitespace,
then an equals sign. -/
def wordRunThenEq : List Char → Bool
  | [] => false
  | c :: cs => isWordChar c && (wordRunThenEq cs || wsThenEq cs)

/-- Regex for event-handler attributes such as `onclick=`. -/
def onEventCheck (s : List Char) : Bool :=
  (List.range (s.length + 1)).any (fun i =>
    matchAtCI s ['o', 'n'] i && wordRunThenEq (s.drop (i + 2)))

def containsXSS (s : String) : Bool :=
  scriptTagCheck s.data
  || containsPatCI s.data ['j', 'a', 'v', 'a', 's', 'c', 'r', 'i', 'p', 't', ':']
  || onEventCheck s.data
  || containsPatCI s.data ['<', 'i', 'f', 'r', 'a', 'm', 'e']
  || containsPatCI s.data ['<', 'o', 'b', 'j', 'e', 'c', 't']
  || containsPatCI s.data ['<', 'e', 'm', 'b', 'e', 'd']

/-- Model of `securityCheck`: the list of issues found, in source order. -/
def securityCheck (s : String) : List String :=
  (if containsSQLInjection s then ["Potential SQL injection detected"] else [])
  ++ (if containsXSS s then ["Potential XSS attack detected"] else [])

/-! ### Validation layer (middleware/validation.ts) -/

structure FieldError where
  field : String
  message : String
deriving DecidableEq, Repr

instance {ε α : Type} [DecidableEq ε] [DecidableEq α] : DecidableEq (Except ε α) := fun x y =>
  match x, y with
  | .ok a, .ok b =>
    if h : a = b then .isTrue (congrArg Except.ok h)
    else .isFalse (fun hc => h (Except.ok.inj hc))
  | .ok _, .error _ => .isFalse (fun hc => Except.noConfusion hc)
  | .error _, .ok _ => .isFalse (fun hc => Except.noConfusion hc)
  | .error e, .error f =>
    if h : e = f then .isTrue (congrArg Except.error h)
    else .isFalse (fun hc => h (Except.error.inj hc))

/-- A raw request body: the four known fields plus arbitrary unknown
fields (`stripUnknown: true` removes the latter). -/
structure RawPayload where
  name : Option String := none
  description : Option String := none
  category : Option String := none
  status : Option String := none
  extra : List (String × String) := []
deriving DecidableEq, Repr

/-- Rule errors for a present `name` value: Joi `string` base empty check,
then `min(3)`, `max(100)` and the `secureString` custom rule, collected
without short-circuit (`abortEarly: false`). -/
def nameErrors (s : String) : List FieldError :=
  if s.length == 0 then
    [{ field := "name", message := "name is not allowed to be empty" }]
  else
    (if s.length < 3 then
      [{ field := "name", message := "Name must be at least 3 characters long" }] else [])
    ++ (if 100 < s.length then
      [{ field := "name", message := "Name must not exceed 100 characters" }] else [])
    ++ (if (securityCheck s).isEmpty then [] else
      [{ field := "name", message := "Name contains potentially dangerous content" }])

/-- Rule errors for a present `description` value: `min(10)`, `max(500)`,
`secureString`. -/
def descriptionErrors (s : String) : List FieldError :=
  if s.length == 0 then
    [{ field := "description", message := "description is not allowed to be empty" }]
  else
    (if s.length < 10 then
      [{ field := "description", message := "Description must be at least 10 characters long" }] else [])
    ++ (if 500 < s.length then
      [{ field := "description", message := "Description must not exceed 500 characters" }] else [])
    ++ (if (securityCheck s).isEmpty then [] else
      [{ field := "description", message := "Description contains potentially dangerous content" }])

/-- The `category` pattern `^[a-zA-Z0-9\s\-_]+$`. -/
def categoryPatternOk (s : String) : Bool :=
  s.data.all (fun c => c.isAlphanum || isJsWs c || c == '-' || c == '_')

/-- Rule errors for a present `category` value: `min(3)`, `max(50)` and
the pattern. -/
def categoryErrors (s : String) : List FieldError :=
  if s.length == 0 then
    [{ field := "category", message := "category is not allowed to be empty" }]
  else
    (if s.length < 3 then
      [{ field := "category", message := "Category must be at least 3 characters long" }] else [])
    ++ (if 50 < s.length then
      [{ field := "category", message := "Category must not exceed 50 characters" }] else [])
    ++ (if categoryPatternOk s then [] else
      [{ field := "category", message := "Category can only contain letters, numbers, spaces, hyphens and underscores" }])

/-- Rule errors for a present `status` value: the valid-enum rule over
active, inactive, archived. -/
def statusErrors (s : String) : List FieldError :=
  if s == "active" || s == "inactive" || s == "archived" then []
  else [{ field := "status", message := "Status must be one of: active, inactive, archived" }]

/-- All errors of `createResourceSchema` for a payload, every field
checked (`abortEarly: false`), required fields reported when missing. -/
def createErrs (p : RawPayload) : List FieldError :=
  (match p.name with
    | none => [{ field := "name", message := "Name is required" }]
    | some s => nameErrors s)
  ++ (match p.description with
    | none => [{ field := "description", message := "Description is required" }]
    | some s => descriptionErrors s)
  ++ (match p.category with
    | none => [{ field := "category", message := "Category is required" }]
    | some s => categoryErrors s)
  ++ (match p.status with
    | none => []
    | some s => statusErrors s)

/-- Model of `validate(createResourceSchema)`: either the full error list or the
normalized payload with unknown fields stripped and `status` defaulted. -/
def validateCreate (p : RawPayload) : Except (List FieldError) CreateDTO :=
  if (createErrs p).isEmpty then
    .ok { name := p.name.getD "", description := p.description.getD "",
          category := p.category.getD "", status := some (p.status.getD "active") }
  else .error (createErrs p)

/-- All errors of `updateResourceSchema`: per-field rules on present
fields plus the object-level `min(1)` rule (`At least one field`), whose
Joi detail path is empty. -/
def updateErrs (p : RawPayload) : List FieldError :=
  (if p.name.isNone && p.description.isNone && p.category.isNone && p.status.isNone then
    [{ field := "", message := "At least one field must be provided for update" }]
  else [])
  ++ (match p.name with | none => [] | some s => nameErrors s)
  ++ (match p.description with | none => [] | some s => descriptionErrors s)
  ++ (match p.category with | none => [] | some s => categoryErrors s)
  ++ (match p.status with | none => [] | some s => statusErrors s)

/-- Model of `validate(updateResourceSchema)`. -/
def validateUpdate (p : RawPayload) : Except (List FieldError) UpdateDTO :=
  if (updateErrs p).isEmpty then
    .ok { name := p.name, description := p.description,
          category := p.category, status := p.status }
  else .error (updateErrs p)

/-- The POST /api/resources pipeline at the store boundary: validation
runs before the controller, so a validation failure answers 400 and never
touches the store; a success inserts and answers 201. -/
def handleCreate (st : DBState) (p : RawPayload) (now : String) : DBState × Nat :=
  match validateCreate p with
  | .error _ => (st, 400)
  | .ok d => ((createRes st d now).1, 201)

/-! ### Basic lemmas -/

theorem lexLe_refl (l : List Char) : lexLe l l = true := by
  induction l with
  | nil => rfl
  | cons a as ih => simp [lexLe, ih]

theorem lexLe_trans : ∀ x y z : List Char,
    lexLe x y = true → lexLe y z = true → lexLe x z = true := by
  intro x
  induction x with
  | nil => intro y z _ _; rfl
  | cons a as ih =>
    intro y z hxy hyz
    cases y with
    | nil => simp [lexLe] at hxy
    | cons b bs =>
      cases z with
      | nil => simp [lexLe] at hyz
      | cons c cs =>
        simp only [lexLe, Bool.or_eq_true, Bool.and_eq_true, decide_eq_true_eq,
          beq_iff_eq] at *
        rcases hxy with h1 | ⟨h1, h2⟩ <;> rcases hyz with h3 | ⟨h3, h4⟩
        · exact Or.inl (h1.trans h3)
        · exact Or.inl (h3 ▸ h1)
        · exact Or.inl (h1 ▸ h3)
        · exact Or.inr ⟨h1.trans h3, ih bs cs h2 h4⟩

theorem tsLe_refl (s : String) : tsLe s s = true := lexLe_refl s.data

theorem tsLe_trans {x y z : String} (h1 : tsLe x y = true) (h2 : tsLe y z = true) :
    tsLe x z = true := lexLe_trans x.data y.data z.data h1 h2

theorem jsOr_of_pos {n : Nat} (d : Nat) (h : 1 ≤ n) : jsOr n d = n := by
  unfold jsOr
  have hf : (n == 0) = false := by simp; omega
  simp [hf]

theorem matchesFilters_empty (r : Resource) : matchesFilters {} r = true := rfl

/-- The spec-level `ceil(total / limit)`: integer division rounded up. -/
def ceilSpec (a b : Nat) : Nat := a / b + (if a % b == 0 then 0 else 1)

theorem ceilJS_eq_ceilSpec (a b : Nat) (hb : 1 ≤ b) : ceilJS a b = ceilSpec a b := by
  unfold ceilJS ceilSpec
  have h0 := Nat.div_add_mod a b
  have hr : a % b < b := Nat.mod_lt _ hb
  have hbp : 0 < b := hb
  by_cases hz : a % b = 0
  · have he : a + b - 1 = b * (a / b) + (b - 1) := by omega
    rw [he, Nat.mul_add_div hbp]
    have h1 : (b - 1) / b = 0 := Nat.div_eq_of_lt (by omega)
    rw [h1]
    simp [hz]
  · have hms : b * (a / b + 1) = b * (a / b) + b := by ring
    have he : a + b - 1 = b * (a / b + 1) + (a % b - 1) := by omega
    rw [he, Nat.mul_add_div hbp]
    have h1 : (a % b - 1) / b = 0 := Nat.div_eq_of_lt (by omega)
    rw [h1]
    have hzf : (a % b == 0) = false := by simp [hz]
    rw [hzf]
    simp

theorem getById_map_upd (rows : List Resource) (i : Nat)
    (g : Resource → Resource) (hg : ∀ r, (g r).id = r.id) (ex : Resource)
    (h : getById rows i = some ex) :
    getById (rows.map (fun r => if r.id == i then g r else r)) i = some (g ex) := by
  induction rows with
  | nil => simp [getById] at h
  | cons r rs ih =>
    by_cases hid : (r.id == i) = true
    · have hex : r = ex := by
        simpa [getById, List.find?, hid] using h
      subst hex
      have hgid : ((g r).id == i) = true := by rw [hg]; exact hid
      simp [getById, List.find?, hid, hgid]
    · have hid' : (r.id == i) = false := Bool.eq_false_iff.mpr hid
      have h' : getById rs i = some ex := by
        simpa [getById, List.find?, hid'] using h
      simpa [getById, List.find?, hid'] using ih h'

theorem mem_updateRes_of_ne (rows : List Resource) (i : Nat) (d : UpdateDTO)
    (now : String) (r : Resource) (hr : r ∈ rows) (hne : r.id ≠ i) :
    r ∈ (updateRes rows i d now).1 := by
  unfold updateRes
  cases hgb : getById rows i with
  | none => simpa using hr
  | some ex =>
    by_cases hc : (updFieldCount d == 0) = true
    · simpa [hc] using hr
    · have hc' : (updFieldCount d == 0) = false := Bool.eq_false_iff.mpr hc
      simp only [hc', Bool.false_eq_true, if_false]
      refine List.mem_map.mpr ⟨r, hr, ?_⟩
      have : (r.id == i) = false := by simpa using hne
      simp [this]

theorem mem_updateRes_cases (rows : List Resource) (i : Nat) (d : UpdateDTO)
    (now : String) (r2 : Resource) (h : r2 ∈ (updateRes rows i d now).1) :
    r2 ∈ rows ∨ ∃ r ∈ rows, r2 = applyUpdate r d now := by
  unfold updateRes at h
  cases hgb : getById rows i with
  | none => rw [hgb] at h; exact Or.inl h
  | some ex =>
    rw [hgb] at h
    by_cases hc : (updFieldCount d == 0) = true
    · simp only [hc, if_true] at h
      exact Or.inl h
    · have hc' : (updFieldCount d == 0) = false := Bool.eq_false_iff.mpr hc
      simp only [hc', Bool.false_eq_true, if_false] at h
      obtain ⟨r, hr, hr2⟩ := List.mem_map.mp h
      by_cases hid : (r.id == i) = true
      · rw [if_pos hid] at hr2
        exact Or.inr ⟨r, hr, hr2.symm⟩
      · rw [if_neg hid] at hr2
        exact Or.inl (hr2 ▸ hr)

/-! ### Claim C1 -/

def c1RowA : Resource :=
  { id := 1, name := "Alpha", description := "First sample resource",
    category := "general", status := "active",
    created_at := "2024-05-05 12:00:00", updated_at := "2024-05-05 12:00:00" }

def c1RowB : Resource :=
  { id := 2, name := "Beta", description := "Second sample resource",
    category := "general", status := "active",
    created_at := "2024-05-05 12:00:00", updated_at := "2024-05-05 12:00:00" }

def c1Res : PagedResult :=
  { data := [c1RowB, c1RowA], pagination := mkPageInfo 1 10 2 }

/-- Claim C1, as stated, is false: the data query orders by
`created_at DESC` with no tiebreaker, so for two rows created in the same
instant (ids 1 and 2, equal `created_at`) the result `[id 2, id 1]` is a
possible answer of the list request, and it is not ordered by ascending id
within the tie. -/
theorem c1_counterexample :
    getAllResult [c1RowA, c1RowB] {} 1 10 c1Res ∧
    ¬ c1Res.data.Pairwise (fun a b =>
        tsLe a.created_at b.created_at = false ∨
        (a.created_at = b.created_at ∧ a.id < b.id)) := by
  constructor
  · exact ⟨[c1RowB, c1RowA], ⟨by decide, by decide⟩, by decide, by decide⟩
  · decide

/-- Claim C1, amended: every possible result of a list request is ordered
descending by creation time and contains only rows matching the filters;
the relative order of records with equal `created_at` is unspecified (the
query has no id tiebreaker), so pagination stability across pages is not
guaranteed for records created in the same instant. -/
theorem c1_theorem (rows : List Resource) (f : ResourceFilters) (page limit : Nat)
    (res : PagedResult) (h : getAllResult rows f page limit res) :
    res.data.Pairwise (fun a b => tsLe b.created_at a.created_at = true) ∧
    ∀ r ∈ res.data, matchesFilters f r = true := by
  obtain ⟨full, ⟨hperm, hsorted⟩, hdata, -⟩ := h
  have hsub : res.data.Sublist full := by
    rw [hdata]
    exact (List.take_sublist _ _).trans (List.drop_sublist _ _)
  refine ⟨hsorted.sublist hsub, ?_⟩
  intro r hr
  have hrf : r ∈ full := hsub.subset hr
  have : r ∈ rows.filter (matchesFilters f) := hperm.subset hrf
  exact List.of_mem_filter this

/-- Concrete instantiation of `c1_theorem`. -/
theorem c1_theorem_witness :
    getAllResult [c1RowA, c1RowB] {} 1 10 { data := [c1RowA, c1RowB], pagination := mkPageInfo 1 10 2 } ∧
    ([c1RowA, c1RowB].Pairwise (fun a b => tsLe b.created_at a.created_at = true) ∧
      ∀ r ∈ [c1RowA, c1RowB], matchesFilters {} r = true) := by
  have hga : getAllResult [c1RowA, c1RowB] {} 1 10
      { data := [c1RowA, c1RowB], pagination := mkPageInfo 1 10 2 } :=
    ⟨[c1RowA, c1RowB], ⟨by decide, by decide⟩, by decide, by decide⟩
  exact ⟨hga, c1_theorem _ _ _ _ _ hga⟩

/-! ### Claim C2 -/

/-- Claim C2: with page `p ≥ 1` and limit `l ∈ [1, 100]`, the data query
skips exactly `(p-1)*l` rows of the full sorted result, the pagination
object satisfies `totalPages = ceil(total / l)`,
`hasNext = (p < totalPages)`, `hasPrev = (p > 1)`; and with `total = 25`,
`limit = 10`, page 3 returns the 5 remaining records with
`hasNext = false`, `hasPrev = true`. -/
theorem c2_theorem (rows : List Resource) (f : ResourceFilters) (page limit : Nat)
    (res : PagedResult) (hp : 1 ≤ page) (hl : 1 ≤ limit) (hl100 : limit ≤ 100)
    (h : getAllResult rows f page limit res) :
    (∃ full, fullScanResult rows f full ∧
      res.data = (full.drop ((page - 1) * limit)).take limit) ∧
    res.data.length = min limit (countTotal rows f - (page - 1) * limit) ∧
    res.pagination.totalPages = ceilSpec (countTotal rows f) limit ∧
    (res.pagination.hasNext = true ↔ page < res.pagination.totalPages) ∧
    (res.pagination.hasPrev = true ↔ 1 < page) ∧
    (countTotal rows f = 25 → limit = 10 → page = 3 →
      res.data.length = 5 ∧ res.pagination.totalPages = 3 ∧
      res.pagination.hasNext = false ∧ res.pagination.hasPrev = true) := by
  obtain ⟨full, hfull, hdata, hpag⟩ := h
  rw [jsOr_of_pos 1 hp, jsOr_of_pos 10 hl] at hdata hpag
  have hlen : full.length = countTotal rows f := hfull.1.length_eq
  have hdl : res.data.length = min limit (countTotal rows f - (page - 1) * limit) := by
    rw [hdata]
    simp [List.length_take, List.length_drop, hlen]
  have htp : res.pagination.totalPages = ceilSpec (countTotal rows f) limit := by
    rw [hpag]
    exact ceilJS_eq_ceilSpec _ _ hl
  refine ⟨⟨full, hfull, hdata⟩, hdl, htp, ?_, ?_, ?_⟩
  · rw [hpag]
    simp [mkPageInfo]
  · rw [hpag]
    simp [mkPageInfo]
  · intro h25 h10 h3
    subst h10 h3
    rw [h25] at hdl htp
    refine ⟨by rw [hdl]; omega, by rw [htp]; decide, ?_, ?_⟩
    · rw [hpag, h25]
      decide
    · rw [hpag]
      simp [mkPageInfo]

def c2Row (i : Nat) : Resource :=
  { id := i, name := "Item", description := "A sample resource entry",
    category := "general", status := "active",
    created_at := "2024-01-01 00:00:00", updated_at := "2024-01-01 00:00:00" }

def c2Rows : List Resource := (List.range 25).map c2Row

def c2Res : PagedResult :=
  { data := (c2Rows.drop 20).take 10, pagination := mkPageInfo 3 10 25 }

/-- Concrete instantiation of `c2_theorem`: 25 records, limit 10, page 3. -/
theorem c2_theorem_witness :
    (1 ≤ 3 ∧ 1 ≤ 10 ∧ 10 ≤ 100 ∧ getAllResult c2Rows {} 3 10 c2Res) ∧
    c2Res.data.length = 5 ∧ c2Res.pagination.hasNext = false ∧
    c2Res.pagination.hasPrev = true := by
  have hga : getAllResult c2Rows {} 3 10 c2Res := by
    refine ⟨c2Rows, ⟨?_, ?_⟩, ?_, ?_⟩
    · decide
    · decide
    · decide
    · decide
  have hmain := c2_theorem c2Rows {} 3 10 c2Res (by decide) (by decide) (by decide) hga
  have hconc := hmain.2.2.2.2.2 (by decide) rfl rfl
  exact ⟨⟨by decide, by decide, by decide, hga⟩, hconc.1, hconc.2.2.1, hconc.2.2.2⟩

/-! ### Claim C3 -/

/-- Claim C3: the count query and the data query share the same WHERE
clause (`buildConds`), so the reported total equals the length of any
possible result of the data query with LIMIT and OFFSET removed; and with
an empty filter set the predicate is trivially true, so every record is
matched and the full scan is a permutation of the whole table. -/
theorem c3_theorem (rows : List Resource) (f : ResourceFilters) (out : List Resource)
    (h : fullScanResult rows f out) :
    out.length = countTotal rows f ∧
    (∀ r, matchesFilters {} r = true) ∧
    rows.filter (matchesFilters {}) = rows ∧
    (∀ out0, fullScanResult rows {} out0 → out0.Perm rows) := by
  refine ⟨h.1.length_eq, fun r => matchesFilters_empty r, ?_, ?_⟩
  · exact List.filter_eq_self.mpr (fun r _ => matchesFilters_empty r)
  · intro out0 h0
    have := h0.1
    rwa [List.filter_eq_self.mpr (fun r _ => matchesFilters_empty r)] at this

def c3RowA : Resource :=
  { id := 1, name := "Gadget", description := "A useful gadget for the home",
    category := "hardware", status := "active",
    created_at := "2024-03-02 08:00:00", updated_at := "2024-03-02 08:00:00" }

def c3RowB : Resource :=
  { id := 2, name := "Widget", description := "A decorative widget item",
    category := "decor", status := "inactive",
    created_at := "2024-03-01 08:00:00", updated_at := "2024-03-01 08:00:00" }

/-- Concrete instantiation of `c3_theorem`: a category filter matching one
of two rows; the count equals the full-scan length. -/
theorem c3_theorem_witness :
    fullScanResult [c3RowA, c3RowB] { category := some "hardware" } [c3RowA] ∧
    [c3RowA].length = countTotal [c3RowA, c3RowB] { category := some "hardware" } := by
  have hs : fullScanResult [c3RowA, c3RowB] { category := some "hardware" } [c3RowA] :=
    ⟨by decide, by decide⟩
  exact ⟨hs, (c3_theorem _ _ _ hs).1⟩

/-! ### Validation helper lemmas -/

theorem validateCreate_error_eq (p : RawPayload) (es : List FieldError)
    (h : validateCreate p = .error es) : es = createErrs p := by
  unfold validateCreate at h
  by_cases hz : (createErrs p).isEmpty = true
  · rw [if_pos hz] at h
    exact absurd h (by simp)
  · rw [if_neg hz] at h
    exact (Except.error.inj h).symm

theorem validateCreate_error_of_mem (p : RawPayload) (e : FieldError)
    (he : e ∈ createErrs p) : validateCreate p = .error (createErrs p) := by
  unfold validateCreate
  have hz : ¬ (createErrs p).isEmpty = true := by
    simp only [List.isEmpty_iff]
    exact List.ne_nil_of_mem he
  rw [if_neg hz]

theorem validateUpdate_error_eq (p : RawPayload) (es : List FieldError)
    (h : validateUpdate p = .error es) : es = updateErrs p := by
  unfold validateUpdate at h
  by_cases hz : (updateErrs p).isEmpty = true
  · rw [if_pos hz] at h
    exact absurd h (by simp)
  · rw [if_neg hz] at h
    exact (Except.error.inj h).symm

theorem validateUpdate_error_of_mem (p : RawPayload) (e : FieldError)
    (he : e ∈ updateErrs p) : validateUpdate p = .error (updateErrs p) := by
  unfold validateUpdate
  have hz : ¬ (updateErrs p).isEmpty = true := by
    simp only [List.isEmpty_iff]
    exact List.ne_nil_of_mem he
  rw [if_neg hz]

theorem mem_createErrs_name (p : RawPayload) (s : String) (hs : p.name = some s)
    (e : FieldError) (he : e ∈ nameErrors s) : e ∈ createErrs p := by
  unfold createErrs
  rw [hs]
  simp only [List.mem_append]
  tauto

theorem mem_createErrs_name_required (p : RawPayload) (hs : p.name = none) :
    ({ field := "name", message := "Name is required" } : FieldError) ∈ createErrs p := by
  unfold createErrs
  rw [hs]
  simp only [List.mem_append, List.mem_singleton]
  tauto

theorem mem_createErrs_description (p : RawPayload) (s : String)
    (hs : p.description = some s) (e : FieldError) (he : e ∈ descriptionErrors s) :
    e ∈ createErrs p := by
  unfold createErrs
  rw [hs]
  simp only [List.mem_append]
  tauto

theorem mem_createErrs_description_required (p : RawPayload) (hs : p.description = none) :
    ({ field := "description", message := "Description is required" } : FieldError) ∈ createErrs p := by
  unfold createErrs
  rw [hs]
  simp only [List.mem_append, List.mem_singleton]
  tauto

theorem mem_createErrs_category (p : RawPayload) (s : String)
    (hs : p.category = some s) (e : FieldError) (he : e ∈ categoryErrors s) :
    e ∈ createErrs p := by
  unfold createErrs
  rw [hs]
  simp only [List.mem_append]
  tauto

theorem mem_createErrs_category_required (p : RawPayload) (hs : p.category = none) :
    ({ field := "category", message := "Category is required" } : FieldError) ∈ createErrs p := by
  unfold createErrs
  rw [hs]
  simp only [List.mem_append, List.mem_singleton]
  tauto

theorem mem_createErrs_status (p : RawPayload) (s : String)
    (hs : p.status = some s) (e : FieldError) (he : e ∈ statusErrors s) :
    e ∈ createErrs p := by
  unfold createErrs
  rw [hs]
  simp only [List.mem_append]
  tauto

theorem mem_updateErrs_name (p : RawPayload) (s : String) (hs : p.name = some s)
    (e : FieldError) (he : e ∈ nameErrors s) : e ∈ updateErrs p := by
  unfold updateErrs
  rw [hs]
  simp only [List.mem_append]
  tauto

theorem mem_updateErrs_description (p : RawPayload) (s : String)
    (hs : p.description = some s) (e : FieldError) (he : e ∈ descriptionErrors s) :
    e ∈ updateErrs p := by
  unfold updateErrs
  rw [hs]
  simp only [List.mem_append]
  tauto

theorem mem_updateErrs_category (p : RawPayload) (s : String)
    (hs : p.category = some s) (e : FieldError) (he : e ∈ categoryErrors s) :
    e ∈ updateErrs p := by
  unfold updateErrs
  rw [hs]
  simp only [List.mem_append]
  tauto

theorem mem_updateErrs_status (p : RawPayload) (s : String)
    (hs : p.status = some s) (e : FieldError) (he : e ∈ statusErrors s) :
    e ∈ updateErrs p := by
  unfold updateErrs
  rw [hs]
  simp only [List.mem_append]
  tauto

theorem securityCheck_not_empty_of_sql (s : String)
    (h : containsSQLInjection s = true) : (securityCheck s).isEmpty = false := by
  unfold securityCheck
  simp [h]

theorem securityCheck_not_empty_of_xss (s : String)
    (h : containsXSS s = true) : (securityCheck s).isEmpty = false := by
  unfold securityCheck
  cases hc : containsSQLInjection s <;> simp [h, hc]

theorem nameErrors_danger (s : String) (hlen : s.length ≠ 0)
    (hsec : (securityCheck s).isEmpty = false) :
    ({ field := "name", message := "Name contains potentially dangerous content" } :
      FieldError) ∈ nameErrors s := by
  have hz : (s.length == 0) = false := by simpa using hlen
  simp only [nameErrors, hz, Bool.false_eq_true, if_false, hsec, List.mem_append]
  tauto

theorem descriptionErrors_danger (s : String) (hlen : s.length ≠ 0)
    (hsec : (securityCheck s).isEmpty = false) :
    ({ field := "description",
       message := "Description contains potentially dangerous content" } :
      FieldError) ∈ descriptionErrors s := by
  have hz : (s.length == 0) = false := by simpa using hlen
  simp only [descriptionErrors, hz, Bool.false_eq_true, if_false, hsec, List.mem_append]
  tauto

/-! ### Claim C4 -/

def c4Row : Resource :=
  { id := 7, name := "Lamp", description := "A small desk lamp",
    category := "home", status := "active",
    created_at := "2024-04-04 09:30:00", updated_at := "2024-04-04 09:30:00" }

def c4Dto : UpdateDTO := { name := some "Lantern" }

def c4After : Resource :=
  { id := 7, name := "Lantern", description := "A small desk lamp",
    category := "home", status := "active",
    created_at := "2024-04-04 09:30:00", updated_at := "2024-04-04 09:30:00" }

/-- Claim C4, as stated, is false in its `updated_at strictly increasing`
part: `updated_at` is set to `CURRENT_TIMESTAMP`, which has one-second
resolution, so an update executed in the same second as the previous
write leaves `updated_at` unchanged.  Here a one-field update at clock
reading `2024-04-04 09:30:00` (equal to the current `updated_at` of the row)
succeeds but does not strictly increase `updated_at`. -/
theorem c4_counterexample :
    1 ≤ updFieldCount c4Dto ∧
    (updateRes [c4Row] 7 c4Dto "2024-04-04 09:30:00").2 = some c4After ∧
    ¬ (tsLe c4After.updated_at c4Row.updated_at = false) := by
  refine ⟨by decide, by decide, by decide⟩

/-- Claim C4, amended: for an update whose payload supplies at least one
field on an existing row, the returned record has exactly the supplied
columns overwritten, every omitted column kept at its prior value, `id`
and `created_at` unchanged, and `updated_at` set to the current timestamp
of the operation (so `updated_at` strictly increases only when the clock
has advanced past the prior value; within the same second it is
unchanged); rows with a different id are untouched; with zero supplied
fields the store returns the existing record and leaves the table
unchanged. -/
theorem c4_theorem (rows : List Resource) (i : Nat) (d : UpdateDTO) (now : String)
    (ex : Resource) (hex : getById rows i = some ex) :
    (1 ≤ updFieldCount d →
      (updateRes rows i d now).2 = some (applyUpdate ex d now) ∧
      (applyUpdate ex d now).id = ex.id ∧
      (applyUpdate ex d now).created_at = ex.created_at ∧
      (applyUpdate ex d now).updated_at = now ∧
      (d.name = none → (applyUpdate ex d now).name = ex.name) ∧
      (d.description = none → (applyUpdate ex d now).description = ex.description) ∧
      (d.category = none → (applyUpdate ex d now).category = ex.category) ∧
      (d.status = none → (applyUpdate ex d now).status = ex.status) ∧
      (∀ v, d.name = some v → (applyUpdate ex d now).name = v) ∧
      (∀ v, d.description = some v → (applyUpdate ex d now).description = v) ∧
      (∀ v, d.category = some v → (applyUpdate ex d now).category = v) ∧
      (∀ v, d.status = some v → (applyUpdate ex d now).status = v) ∧
      (updateRes rows i d now).1.length = rows.length ∧
      (∀ r ∈ rows, r.id ≠ i → r ∈ (updateRes rows i d now).1)) ∧
    (updFieldCount d = 0 → updateRes rows i d now = (rows, some ex)) := by
  constructor
  · intro h1
    have hcz : (updFieldCount d == 0) = false := by simp; omega
    have hupd : updateRes rows i d now =
        (rows.map (fun r => if r.id == i then applyUpdate r d now else r),
          getById (rows.map (fun r => if r.id == i then applyUpdate r d now else r)) i) := by
      unfold updateRes
      rw [hex]
      simp only [hcz, Bool.false_eq_true, if_false]
    refine ⟨?_, rfl, rfl, rfl, ?_, ?_, ?_, ?_, ?_, ?_, ?_, ?_, ?_, ?_⟩
    · rw [hupd]
      exact getById_map_upd rows i (fun r => applyUpdate r d now) (fun r => rfl) ex hex
    · intro h; simp [applyUpdate, h]
    · intro h; simp [applyUpdate, h]
    · intro h; simp [applyUpdate, h]
    · intro h; simp [applyUpdate, h]
    · intro v h; simp [applyUpdate, h]
    · intro v h; simp [applyUpdate, h]
    · intro v h; simp [applyUpdate, h]
    · intro v h; simp [applyUpdate, h]
    · rw [hupd]
      exact List.length_map _ _
    · intro r hr hne
      exact mem_updateRes_of_ne rows i d now r hr hne
  · intro h0
    unfold updateRes
    rw [hex]
    simp [h0]

/-- Concrete instantiation of `c4_theorem`: a later-clock one-field update
of the row with id 7. -/
theorem c4_theorem_witness :
    getById [c4Row] 7 = some c4Row ∧ 1 ≤ updFieldCount c4Dto ∧
    (updateRes [c4Row] 7 c4Dto "2024-04-04 09:31:00").2 =
      some (applyUpdate c4Row c4Dto "2024-04-04 09:31:00") := by
  have hex : getById [c4Row] 7 = some c4Row := by decide
  exact ⟨hex, by decide,
    ((c4_theorem [c4Row] 7 c4Dto "2024-04-04 09:31:00" c4Row hex).1 (by decide)).1⟩

/-! ### Claim C6 -/

/-- Timestamp invariant: for every row, `created_at` is at or before its
`updated_at`, and no row timestamp is in the future of clock reading `t`. -/
def tsInv (rows : List Resource) (t : String) : Prop :=
  ∀ r ∈ rows, tsLe r.created_at r.updated_at = true ∧ tsLe r.updated_at t = true

theorem tsInv_opStep (st : DBState) (o : Op) (t now : String)
    (hinv : tsInv st.rows t) (hle : tsLe t now = true) :
    tsInv (opStep st o now).rows now := by
  cases o with
  | create d =>
    intro r hr
    simp only [opStep, createRes] at hr
    rcases List.mem_append.mp hr with hold | hnew
    · exact ⟨(hinv r hold).1, tsLe_trans (hinv r hold).2 hle⟩
    · have hr' : r = newRow st d now := by simpa using hnew
      subst hr'
      exact ⟨tsLe_refl now, tsLe_refl now⟩
  | update i d =>
    intro r hr
    simp only [opStep] at hr
    rcases mem_updateRes_cases st.rows i d now r hr with hold | ⟨r0, hr0, heq⟩
    · exact ⟨(hinv r hold).1, tsLe_trans (hinv r hold).2 hle⟩
    · subst heq
      have h0 := hinv r0 hr0
      refine ⟨?_, tsLe_refl now⟩
      simp only [applyUpdate]
      exact tsLe_trans h0.1 (tsLe_trans h0.2 hle)
  | del i =>
    intro r hr
    simp only [opStep, deleteRes] at hr
    have hold := List.mem_of_mem_filter hr
    exact ⟨(hinv r hold).1, tsLe_trans (hinv r hold).2 hle⟩

theorem tsInv_runTrace (ops : List (Op × String)) (st : DBState) (t0 : String)
    (hinv : tsInv st.rows t0) (hm : monoTimes t0 ops) :
    ∀ r ∈ (runTrace st ops).rows, tsLe r.created_at r.updated_at = true := by
  induction ops generalizing st t0 with
  | nil => exact fun r hr => (hinv r hr).1
  | cons p rest ih =>
    obtain ⟨o, t⟩ := p
    obtain ⟨hle, hm'⟩ := hm
    exact ih (opStep st o t) t (tsInv_opStep st o t0 t hinv hle) hm'

/-- Claim C6: in every database state reachable by a trace of
create/update/delete operations under a monotone clock, every row
satisfies `created_at <= updated_at`; and the record returned by a create
has `created_at = updated_at` (both take the same `CURRENT_TIMESTAMP`
schema default in the single INSERT). -/
theorem c6_theorem :
    (∀ (ops : List (Op × String)) (t0 : String), monoTimes t0 ops →
      ∀ r ∈ (runTrace initDB ops).rows, tsLe r.created_at r.updated_at = true) ∧
    (∀ (st : DBState) (d : CreateDTO) (now : String),
      (createRes st d now).2.created_at = (createRes st d now).2.updated_at) := by
  constructor
  · intro ops t0 hm
    exact tsInv_runTrace ops initDB t0 (fun r hr => absurd hr (by simp [initDB])) hm
  · intro st d now
    rfl

def c6Dto : CreateDTO :=
  { name := "Notebook", description := "A ruled paper notebook", category := "stationery" }

def c6Ops : List (Op × String) :=
  [(.create c6Dto, "2024-02-01 10:00:00"),
   (.update 1 { name := some "Journal" }, "2024-02-01 10:05:00")]

def c6Row : Resource :=
  { id := 1, name := "Journal", description := "A ruled paper notebook",
    category := "stationery", status := "active",
    created_at := "2024-02-01 10:00:00", updated_at := "2024-02-01 10:05:00" }

/-- Concrete instantiation of `c6_theorem`: a create followed by a
later-clock update; the surviving row keeps `created_at <= updated_at`. -/
theorem c6_theorem_witness :
    monoTimes "2024-01-01 00:00:00" c6Ops ∧
    c6Row ∈ (runTrace initDB c6Ops).rows ∧
    tsLe c6Row.created_at c6Row.updated_at = true := by
  have hm : monoTimes "2024-01-01 00:00:00" c6Ops := ⟨by decide, by decide, trivial⟩
  have hmem : c6Row ∈ (runTrace initDB c6Ops).rows := by decide
  exact ⟨hm, hmem, (c6_theorem.1 c6Ops "2024-01-01 00:00:00" hm) c6Row hmem⟩

/-! ### Claim C5 -/

/-- Claim C5: validation evaluates every field of the payload in one pass
(`abortEarly: false`), so the error list reported for an invalid payload
contains the errors of every violated field together; unknown fields never
influence the outcome and are absent from the accepted payload
(`stripUnknown: true`).  The create schema reports missing required
fields; the update schema reports the rule errors of every present field. -/
theorem c5_theorem (p : RawPayload) :
    (∀ xs, validateCreate { p with extra := xs } = validateCreate { p with extra := [] }) ∧
    (∀ e, e ∈ createErrs p → validateCreate p = .error (createErrs p)) ∧
    (∀ es, validateCreate p = .error es →
      (∀ s, p.name = some s → ∀ e ∈ nameErrors s, e ∈ es) ∧
      (p.name = none →
        ({ field := "name", message := "Name is required" } : FieldError) ∈ es) ∧
      (∀ s, p.description = some s → ∀ e ∈ descriptionErrors s, e ∈ es) ∧
      (p.description = none →
        ({ field := "description", message := "Description is required" } : FieldError) ∈ es) ∧
      (∀ s, p.category = some s → ∀ e ∈ categoryErrors s, e ∈ es) ∧
      (p.category = none →
        ({ field := "category", message := "Category is required" } : FieldError) ∈ es) ∧
      (∀ s, p.status = some s → ∀ e ∈ statusErrors s, e ∈ es)) ∧
    (∀ xs, validateUpdate { p with extra := xs } = validateUpdate { p with extra := [] }) ∧
    (∀ es, validateUpdate p = .error es →
      (∀ s, p.name = some s → ∀ e ∈ nameErrors s, e ∈ es) ∧
      (∀ s, p.description = some s → ∀ e ∈ descriptionErrors s, e ∈ es) ∧
      (∀ s, p.category = some s → ∀ e ∈ categoryErrors s, e ∈ es) ∧
      (∀ s, p.status = some s → ∀ e ∈ statusErrors s, e ∈ es)) := by
  refine ⟨fun xs => rfl, ?_, ?_, fun xs => rfl, ?_⟩
  · exact fun e he => validateCreate_error_of_mem p e he
  · intro es hes
    have heq := validateCreate_error_eq p es hes
    subst heq
    refine ⟨?_, ?_, ?_, ?_, ?_, ?_, ?_⟩
    · exact fun s hs e he => mem_createErrs_name p s hs e he
    · exact fun hs => mem_createErrs_name_required p hs
    · exact fun s hs e he => mem_createErrs_description p s hs e he
    · exact fun hs => mem_createErrs_description_required p hs
    · exact fun s hs e he => mem_createErrs_category p s hs e he
    · exact fun hs => mem_createErrs_category_required p hs
    · exact fun s hs e he => mem_createErrs_status p s hs e he
  · intro es hes
    have heq := validateUpdate_error_eq p es hes
    subst heq
    refine ⟨?_, ?_, ?_, ?_⟩
    · exact fun s hs e he => mem_updateErrs_name p s hs e he
    · exact fun s hs e he => mem_updateErrs_description p s hs e he
    · exact fun s hs e he => mem_updateErrs_category p s hs e he
    · exact fun s hs e he => mem_updateErrs_status p s hs e he

def c5Payload : RawPayload := { name := some "ab", category := some "technology" }

/-- Concrete instantiation of `c5_theorem`: a create payload with a
2-character name and a missing description is rejected with both the
`name` min-length error and the `description` required error in the same
error list. -/
theorem c5_theorem_witness :
    validateCreate c5Payload = .error (createErrs c5Payload) ∧
    ({ field := "name", message := "Name must be at least 3 characters long" } :
      FieldError) ∈ createErrs c5Payload ∧
    ({ field := "description", message := "Description is required" } :
      FieldError) ∈ createErrs c5Payload := by
  have hmem : ({ field := "name", message := "Name must be at least 3 characters long" } :
      FieldError) ∈ createErrs c5Payload := by decide
  have herr := (c5_theorem c5Payload).2.1 _ hmem
  have hcompl := (c5_theorem c5Payload).2.2.1 (createErrs c5Payload) herr
  refine ⟨herr, ?_, ?_⟩
  · exact hcompl.1 "ab" rfl _ (by decide)
  · exact hcompl.2.2.2.1 rfl

/-! ### Claim C8 -/

/-- The characters of `<script>alert(1)</script>`. -/
def xssChars : List Char :=
  ['<', 's', 'c', 'r', 'i', 'p', 't', '>', 'a', 'l', 'e', 'r', 't',
   '(', '1', ')', '<', '/', 's', 'c', 'r', 'i', 'p', 't', '>']

theorem scriptTag_of_decomp (s : String) (a b : List Char)
    (h : s.data = a ++ (xssChars ++ b)) : scriptTagCheck s.data = true := by
  have hdrop : s.data.drop a.length = xssChars ++ b := by
    rw [h]
    exact List.drop_left a (xssChars ++ b)
  have h25 : xssChars.length = 25 := by decide
  have hslen : s.data.length = a.length + (25 + b.length) := by
    rw [h]
    simp [List.length_append, h25]
  have hdrop7 : s.data.drop (a.length + 7) = xssChars.drop 7 ++ b := by
    rw [← List.drop_drop 7 a.length s.data, hdrop]
    exact List.drop_append_of_le_length (by decide)
  have hdrop16 : s.data.drop (a.length + 16) = xssChars.drop 16 ++ b := by
    rw [← List.drop_drop 16 a.length s.data, hdrop]
    exact List.drop_append_of_le_length (by decide)
  unfold scriptTagCheck
  apply List.any_eq_true.mpr
  refine ⟨a.length, List.mem_range.mpr (by omega), ?_⟩
  have h1 : matchAtCI s.data openScript a.length = true := by
    unfold matchAtCI
    rw [hdrop, List.take_append_of_le_length (by decide)]
    decide
  have h2 : headNonWord (s.data.drop (a.length + 7)) = true := by
    rw [hdrop7]
    rfl
  have h3 : (List.range (s.data.length + 1)).any (fun j =>
      decide (a.length + 7 ≤ j) && matchAtCI s.data closeScript j) = true := by
    apply List.any_eq_true.mpr
    refine ⟨a.length + 16, List.mem_range.mpr (by omega), ?_⟩
    have hm : matchAtCI s.data closeScript (a.length + 16) = true := by
      unfold matchAtCI
      rw [hdrop16, List.take_append_of_le_length (by decide)]
      decide
    rw [hm, decide_eq_true (by omega : a.length + 7 ≤ a.length + 16)]
    rfl
  rw [h1, h2, h3]
  rfl

theorem containsXSS_of_decomp (s : String) (a b : List Char)
    (h : s.data = a ++ (xssChars ++ b)) : containsXSS s = true := by
  unfold containsXSS
  rw [scriptTag_of_decomp s a b h]
  rfl

/-- Claim C8: any `name` or `description` value containing
`<script>alert(1)</script>` is classified as XSS by the security filter,
and both the create and the update schema reject the payload with a
field-level `potentially dangerous content` error on that field; on the
create pipeline the request is answered 400 and the store is untouched,
so the value is never stored. -/
theorem c8_theorem (s : String) (a b : List Char)
    (h : s.data = a ++ (xssChars ++ b)) :
    containsXSS s = true ∧
    (∀ p : RawPayload, p.name = some s →
      validateCreate p = .error (createErrs p) ∧
      ({ field := "name", message := "Name contains potentially dangerous content" } :
        FieldError) ∈ createErrs p) ∧
    (∀ p : RawPayload, p.description = some s →
      validateCreate p = .error (createErrs p) ∧
      ({ field := "description",
         message := "Description contains potentially dangerous content" } :
        FieldError) ∈ createErrs p) ∧
    (∀ p : RawPayload, p.name = some s →
      validateUpdate p = .error (updateErrs p) ∧
      ({ field := "name", message := "Name contains potentially dangerous content" } :
        FieldError) ∈ updateErrs p) ∧
    (∀ p : RawPayload, p.description = some s →
      validateUpdate p = .error (updateErrs p) ∧
      ({ field := "description",
         message := "Description contains potentially dangerous content" } :
        FieldError) ∈ updateErrs p) ∧
    (∀ (st : DBState) (p : RawPayload) (now : String), p.name = some s →
      handleCreate st p now = (st, 400)) := by
  have hxss := containsXSS_of_decomp s a b h
  have hsec := securityCheck_not_empty_of_xss s hxss
  have hlen : s.length ≠ 0 := by
    show s.data.length ≠ 0
    have h25 : xssChars.length = 25 := by decide
    rw [h]
    simp only [List.length_append, h25]
    omega
  have hnd := nameErrors_danger s hlen hsec
  have hdd := descriptionErrors_danger s hlen hsec
  refine ⟨hxss, ?_, ?_, ?_, ?_, ?_⟩
  · intro p hp
    have hmem := mem_createErrs_name p s hp _ hnd
    exact ⟨validateCreate_error_of_mem p _ hmem, hmem⟩
  · intro p hp
    have hmem := mem_createErrs_description p s hp _ hdd
    exact ⟨validateCreate_error_of_mem p _ hmem, hmem⟩
  · intro p hp
    have hmem := mem_updateErrs_name p s hp _ hnd
    exact ⟨validateUpdate_error_of_mem p _ hmem, hmem⟩
  · intro p hp
    have hmem := mem_updateErrs_description p s hp _ hdd
    exact ⟨validateUpdate_error_of_mem p _ hmem, hmem⟩
  · intro st p now hp
    have hmem := mem_createErrs_name p s hp _ hnd
    have herr := validateCreate_error_of_mem p _ hmem
    unfold handleCreate
    rw [herr]

def c8Name : String := "<script>alert(1)</script>"

def c8Payload : RawPayload :=
  { name := some c8Name, description := some "An ordinary description text",
    category := some "technology" }

/-- Concrete instantiation of `c8_theorem`: the exact payload
`<script>alert(1)</script>` as the name value. -/
theorem c8_theorem_witness :
    c8Name.data = [] ++ (xssChars ++ []) ∧
    containsXSS c8Name = true ∧
    validateCreate c8Payload = .error (createErrs c8Payload) ∧
    ({ field := "name", message := "Name contains potentially dangerous content" } :
      FieldError) ∈ createErrs c8Payload := by
  have hd : c8Name.data = [] ++ (xssChars ++ []) := by decide
  have hall := c8_theorem c8Name [] [] hd
  have hcase := hall.2.1 c8Payload rfl
  exact ⟨hd, hall.1, hcase.1, hcase.2⟩

/-! ### Claim C10 -/

theorem matchAt_nil (pat : List Char) (i : Nat) (h : matchAt [] pat i = true) :
    pat = [] := by
  simp [matchAt] at h
  exact h

theorem containsPat_ne_nil (s pat : List Char) (hp : pat ≠ [])
    (h : containsPat s pat = true) : s ≠ [] := by
  intro hs
  subst hs
  obtain ⟨i, -, hm⟩ := List.any_eq_true.mp h
  exact hp (matchAt_nil pat i hm)

/-- Claim C10: any input containing a single quote, double quote,
semicolon, backslash, or one of the SQL comment tokens `--`, `#`, `/*`,
`*/` is flagged by `securityCheck` as SQL injection, so create and update
validation reject any `name` or `description` containing such a
character, however benign (e.g. a surname with an apostrophe). -/
theorem c10_theorem (s : String)
    (h : sqlQuoteCheck s = true ∨ sqlCommentCheck s = true) :
    containsSQLInjection s = true ∧
    "Potential SQL injection detected" ∈ securityCheck s ∧
    (∀ p : RawPayload, p.name = some s →
      validateCreate p = .error (createErrs p) ∧
      ({ field := "name", message := "Name contains potentially dangerous content" } :
        FieldError) ∈ createErrs p) ∧
    (∀ p : RawPayload, p.description = some s →
      validateCreate p = .error (createErrs p) ∧
      ({ field := "description",
         message := "Description contains potentially dangerous content" } :
        FieldError) ∈ createErrs p) ∧
    (∀ p : RawPayload, p.name = some s →
      validateUpdate p = .error (updateErrs p) ∧
      ({ field := "name", message := "Name contains potentially dangerous content" } :
        FieldError) ∈ updateErrs p) ∧
    (∀ p : RawPayload, p.description = some s →
      validateUpdate p = .error (updateErrs p) ∧
      ({ field := "description",
         message := "Description contains potentially dangerous content" } :
        FieldError) ∈ updateErrs p) := by
  have hsql : containsSQLInjection s = true := by
    unfold containsSQLInjection
    rcases h with hq | hc
    · rw [hq]
      simp
    · rw [hc]
      simp
  have hne : s.data ≠ [] := by
    rcases h with hq | hc
    · obtain ⟨c, hc, -⟩ := List.any_eq_true.mp hq
      exact List.ne_nil_of_mem hc
    · unfold sqlCommentCheck at hc
      rcases Bool.or_eq_true _ _ |>.mp hc with hc' | hc'
      · rcases Bool.or_eq_true _ _ |>.mp hc' with hc'' | hc''
        · rcases Bool.or_eq_true _ _ |>.mp hc'' with hc3 | hc3
          · exact containsPat_ne_nil _ _ (by decide) hc3
          · exact containsPat_ne_nil _ _ (by decide) hc3
        · exact containsPat_ne_nil _ _ (by decide) hc''
      · exact containsPat_ne_nil _ _ (by decide) hc'
  have hlen : s.length ≠ 0 := by
    intro h0
    exact hne (List.eq_nil_of_length_eq_zero h0)
  have hsec := securityCheck_not_empty_of_sql s hsql
  have hnd := nameErrors_danger s hlen hsec
  have hdd := descriptionErrors_danger s hlen hsec
  refine ⟨hsql, ?_, ?_, ?_, ?_, ?_⟩
  · unfold securityCheck
    simp [hsql]
  · intro p hp
    have hmem := mem_createErrs_name p s hp _ hnd
    exact ⟨validateCreate_error_of_mem p _ hmem, hmem⟩
  · intro p hp
    have hmem := mem_createErrs_description p s hp _ hdd
    exact ⟨validateCreate_error_of_mem p _ hmem, hmem⟩
  · intro p hp
    have hmem := mem_updateErrs_name p s hp _ hnd
    exact ⟨validateUpdate_error_of_mem p _ hmem, hmem⟩
  · intro p hp
    have hmem := mem_updateErrs_description p s hp _ hdd
    exact ⟨validateUpdate_error_of_mem p _ hmem, hmem⟩

def c10Name : String := String.mk ['O', Char.ofNat 39, 'B', 'r', 'i', 'e', 'n']

def c10Payload : RawPayload :=
  { name := some c10Name, description := some "An Irish family surname",
    category := some "people" }

def c10UpdPayload : RawPayload := { description := some c10Name }

/-- Concrete instantiation of `c10_theorem`: the benign surname with an
apostrophe is rejected at creation as a name and at update as a
description. -/
theorem c10_theorem_witness :
    sqlQuoteCheck c10Name = true ∧
    "Potential SQL injection detected" ∈ securityCheck c10Name ∧
    validateCreate c10Payload = .error (createErrs c10Payload) ∧
    ({ field := "name", message := "Name contains potentially dangerous content" } :
      FieldError) ∈ createErrs c10Payload ∧
    validateUpdate c10UpdPayload = .error (updateErrs c10UpdPayload) ∧
    ({ field := "description",
       message := "Description contains potentially dangerous content" } :
      FieldError) ∈ updateErrs c10UpdPayload := by
  have hq : sqlQuoteCheck c10Name = true := by decide
  have hall := c10_theorem c10Name (Or.inl hq)
  have hcase := hall.2.2.1 c10Payload rfl
  have hupd := hall.2.2.2.2.2 c10UpdPayload rfl
  exact ⟨hq, hall.2.1, hcase.1, hcase.2, hupd.1, hupd.2⟩

/-! ### Controller id parsing (resource.controller.ts) -/

/-- An ASCII decimal digit (character codes 48 to 57). -/
def isDigitCh (c : Char) : Bool := 48 ≤ c.toNat && c.toNat ≤ 57

/-- The numeric value of a char under JS `parseInt`: `0-9`, then `a-z`
and `A-Z` as 10 to 35, accepted only below the radix. -/
def digitVal (radix : Nat) (c : Char) : Option Nat :=
  let v : Option Nat :=
    if isDigitCh c then some (c.toNat - 48)
    else if 97 ≤ c.toNat && c.toNat ≤ 122 then some (c.toNat - 87)
    else if 65 ≤ c.toNat && c.toNat ≤ 90 then some (c.toNat - 55)
    else none
  match v with
  | some d => if d < radix then some d else none
  | none => none

/-- The longest prefix of valid digit values (parsing stops at the first
invalid character). -/
def takeDigits (radix : Nat) : List Char → List Nat
  | [] => []
  | c :: cs =>
    match digitVal radix c with
    | some v => v :: takeDigits radix cs
    | none => []

/-- The optional leading sign of a JS `parseInt` argument. -/
def stripSign : List Char → Int × List Char
  | [] => (1, [])
  | c :: rest =>
    if c == '-' then (-1, rest)
    else if c == '+' then (1, rest)
    else (1, c :: rest)

/-- With no radix argument, a `0x`/`0X` prefix selects base 16,
otherwise base 10. -/
def stripHex : List Char → Nat × List Char
  | c0 :: c1 :: rest =>
    if c0 == '0' && (c1 == 'x' || c1 == 'X') then (16, rest)
    else (10, c0 :: c1 :: rest)
  | cs => (10, cs)

/-- JS `parseInt(s)` with no radix argument: skip leading whitespace,
take an optional sign, detect a hex prefix, read the longest digit
prefix; `NaN` (here `none`) when no digit was read. -/
def parseIntJS (s : String) : Option Int :=
  let cs := s.data.dropWhile isJsWs
  let sp := stripSign cs
  let rp := stripHex sp.2
  let ds := takeDigits rp.1 rp.2
  if ds.isEmpty then none
  else some (sp.1 * Int.ofNat (ds.foldl (fun acc d => acc * rp.1 + d) 0))

/-- SQL read `SELECT * FROM resources WHERE id = ?` with the parsed (possibly
negative) id value. -/
def findById (rows : List Resource) (n : Int) : Option Resource :=
  rows.find? (fun r => ((r.id : Int) == n))

/-- Outcome of an id-based route: 400 Invalid resource ID, 404 Resource
not found, or 200 (with the record for get/update). -/
inductive HandlerResult where
  | badId
  | notFound
  | ok (r : Option Resource)
deriving DecidableEq, Repr

/-- Model of `ResourceController.getById`: `parseInt` the path parameter; `NaN`
answers 400 without touching the store; otherwise the store is read and
absence answers 404, presence 200. -/
def getByIdOutcome (rows : List Resource) (idStr : String) : HandlerResult :=
  match parseIntJS idStr with
  | none => .badId
  | some n =>
    match findById rows n with
    | none => .notFound
    | some r => .ok (some r)

/-- Model of `ResourceController.delete`: 400 on `NaN`, else delete by id; 404
when no row was removed (`changes = 0`). -/
def deleteOutcome (rows : List Resource) (idStr : String) :
    List Resource × HandlerResult :=
  match parseIntJS idStr with
  | none => (rows, .badId)
  | some n =>
    let remaining := rows.filter (fun r => !((r.id : Int) == n))
    if remaining.length == rows.length then (rows, .notFound)
    else (remaining, .ok none)

/-- Model of `ResourceService.update` called with the parsed (Int-valued) id. -/
def updateResI (rows : List Resource) (n : Int) (d : UpdateDTO) (now : String) :
    List Resource × Option Resource :=
  match findById rows n with
  | none => (rows, none)
  | some existing =>
    if updFieldCount d == 0 then (rows, some existing)
    else
      let rows2 := rows.map (fun r => if (r.id : Int) == n then applyUpdate r d now else r)
      (rows2, findById rows2 n)

/-- Model of `ResourceController.update`: 400 on `NaN`, else the service update;
`null` answers 404, otherwise 200 with the record. -/
def updateOutcome (rows : List Resource) (idStr : String) (d : UpdateDTO)
    (now : String) : List Resource × HandlerResult :=
  match parseIntJS idStr with
  | none => (rows, .badId)
  | some n =>
    match (updateResI rows n d now).2 with
    | none => ((updateResI rows n d now).1, .notFound)
    | some r => ((updateResI rows n d now).1, .ok (some r))

/-- Drop an optional leading sign (spec-side helper). -/
def stripSignSpec : List Char → List Char
  | [] => []
  | c :: rest => if c == '-' || c == '+' then rest else c :: rest

/-- Notion of a numeric id used by the claim: an optional sign followed by one
or more decimal digits and nothing else. -/
def isNumericId (s : String) : Bool :=
  !(stripSignSpec s.data).isEmpty && (stripSignSpec s.data).all isDigitCh

/-! ### Parsing lemmas for C7 -/

theorem char_beq_false_of_toNat_ne (c k : Char) (h : c.toNat ≠ k.toNat) :
    (c == k) = false := by
  apply beq_eq_false_iff_ne.mpr
  intro he
  exact h (by rw [he])

theorem isDigitCh_bounds (c : Char) (h : isDigitCh c = true) :
    48 ≤ c.toNat ∧ c.toNat ≤ 57 := by
  simpa [isDigitCh] using h

theorem isJsWs_false_of_digit (c : Char) (h : isDigitCh c = true) :
    isJsWs c = false := by
  have hb := isDigitCh_bounds c h
  simp only [isJsWs, Bool.or_eq_false_iff, beq_eq_false_iff_ne, ne_eq]
  omega

theorem digitVal_ten_of_digit (c : Char) (h : isDigitCh c = true) :
    digitVal 10 c = some (c.toNat - 48) := by
  have hb := isDigitCh_bounds c h
  simp only [digitVal, h, if_true]
  rw [if_pos (by omega)]

theorem takeDigits_isEmpty_false (ds : List Char) (hne : ds.isEmpty = false)
    (hall : ds.all isDigitCh = true) : (takeDigits 10 ds).isEmpty = false := by
  cases ds with
  | nil => simp at hne
  | cons d rest =>
    have hd : isDigitCh d = true := List.all_eq_true.mp hall d (by simp)
    simp only [takeDigits, digitVal_ten_of_digit d hd]
    rfl

theorem stripSignSpec_eq (cs : List Char) : stripSignSpec cs = (stripSign cs).2 := by
  cases cs with
  | nil => rfl
  | cons c rest =>
    simp only [stripSignSpec, stripSign]
    by_cases h1 : (c == '-') = true
    · simp [h1]
    · by_cases h2 : (c == '+') = true
      · simp [h1, h2]
      · simp [h1, h2]

theorem stripHex_of_digits (ds : List Char) (hall : ds.all isDigitCh = true) :
    stripHex ds = (10, ds) := by
  cases ds with
  | nil => rfl
  | cons d rest =>
    cases rest with
    | nil => rfl
    | cons e rest2 =>
      have he : isDigitCh e = true := List.all_eq_true.mp hall e (by simp)
      have hb := isDigitCh_bounds e he
      have hex : (e == 'x') = false :=
        char_beq_false_of_toNat_ne e 'x' (show e.toNat ≠ 120 by omega)
      have heX : (e == 'X') = false :=
        char_beq_false_of_toNat_ne e 'X' (show e.toNat ≠ 88 by omega)
      simp [stripHex, hex, heX]

theorem parseIntJS_of_numeric (s : String) (h : isNumericId s = true) :
    ∃ n, parseIntJS s = some n := by
  simp only [isNumericId, Bool.and_eq_true] at h
  obtain ⟨hne, hall⟩ := h
  rw [Bool.not_eq_true'] at hne
  cases hd : s.data with
  | nil =>
    rw [hd] at hne
    simp [stripSignSpec] at hne
  | cons c rest =>
    rw [hd] at hne hall
    have hhead : isJsWs c = false := by
      by_cases hsgn : (c == '-' || c == '+') = true
      · rcases (Bool.or_eq_true _ _).mp hsgn with hm | hp
        · rw [beq_iff_eq.mp hm]
          rfl
        · rw [beq_iff_eq.mp hp]
          rfl
      · have hss : stripSignSpec (c :: rest) = c :: rest := by
          simp [stripSignSpec, Bool.eq_false_iff.mpr hsgn]
        rw [hss] at hall
        exact isJsWs_false_of_digit c (List.all_eq_true.mp hall c (by simp))
    have hdw : (c :: rest).dropWhile isJsWs = c :: rest := by
      simp [List.dropWhile_cons, hhead]
    have hsh : stripHex (stripSign (c :: rest)).2 = (10, (stripSign (c :: rest)).2) := by
      rw [← stripSignSpec_eq]
      exact stripHex_of_digits _ hall
    have hds : (takeDigits 10 (stripSign (c :: rest)).2).isEmpty = false := by
      rw [← stripSignSpec_eq]
      exact takeDigits_isEmpty_false _ hne hall
    simp only [parseIntJS, hd, hdw, hsh, hds, Bool.false_eq_true, if_false]
    exact ⟨_, rfl⟩

theorem findById_map_upd (rows : List Resource) (n : Int) (d : UpdateDTO)
    (now : String) (ex : Resource) (h : findById rows n = some ex) :
    findById (rows.map (fun r => if (r.id : Int) == n then applyUpdate r d now else r)) n
      = some (applyUpdate ex d now) := by
  induction rows with
  | nil => simp [findById] at h
  | cons r rs ih =>
    by_cases hid : ((r.id : Int) == n) = true
    · have hex : r = ex := by
        simpa [findById, List.find?, hid] using h
      subst hex
      have hgid : (((applyUpdate r d now).id : Int) == n) = true := hid
      simp [findById, List.find?, hid, hgid]
    · have hid' : ((r.id : Int) == n) = false := Bool.eq_false_iff.mpr hid
      have h' : findById rs n = some ex := by
        simpa [findById, List.find?, hid'] using h
      simpa [findById, List.find?, hid'] using ih h'

/-! ### Claim C7 -/

def c7Row : Resource :=
  { id := 12, name := "Dozen", description := "The twelfth sample resource",
    category := "general", status := "active",
    created_at := "2024-06-06 06:00:00", updated_at := "2024-06-06 06:00:00" }

/-- Claim C7, as stated, is false: `parseInt` accepts any numeric prefix,
so the non-numeric id path parameter `12abc` parses to `12` and the
handler reads the store (here answering 200 with the row of id 12)
instead of rejecting with 400 Invalid resource ID. -/
theorem c7_counterexample :
    isNumericId "12abc" = false ∧
    parseIntJS "12abc" = some 12 ∧
    getByIdOutcome [c7Row] "12abc" = .ok (some c7Row) ∧
    getByIdOutcome [c7Row] "12abc" ≠ .badId := by
  refine ⟨by decide, by decide, by decide, by decide⟩

/-- Claim C7, amended: the get/update/delete handlers answer 400 Invalid
resource ID, without touching the store, exactly when JS `parseInt` of
the id yields `NaN` (no parsable numeric prefix); any id with a numeric
prefix — including fully numeric ids, which always parse — proceeds to
the store, where absence answers 404 and presence 200 (for delete, 200
with no record removed being impossible: absence answers 404 and a
removal answers 200). -/
theorem c7_theorem (rows : List Resource) (idStr : String) :
    (parseIntJS idStr = none →
      getByIdOutcome rows idStr = .badId ∧
      deleteOutcome rows idStr = (rows, .badId) ∧
      (∀ d now, updateOutcome rows idStr d now = (rows, .badId))) ∧
    (∀ n, parseIntJS idStr = some n →
      (findById rows n = none → getByIdOutcome rows idStr = .notFound) ∧
      (∀ r, findById rows n = some r → getByIdOutcome rows idStr = .ok (some r)) ∧
      (findById rows n = none →
        deleteOutcome rows idStr = (rows, .notFound) ∧
        (∀ d now, updateOutcome rows idStr d now = (rows, .notFound))) ∧
      (∀ r, findById rows n = some r →
        (deleteOutcome rows idStr).2 = .ok none ∧
        (∀ d now, ∃ ret, (updateOutcome rows idStr d now).2 = .ok (some ret)))) ∧
    (isNumericId idStr = true → ∃ n, parseIntJS idStr = some n) := by
  refine ⟨?_, ?_, fun h => parseIntJS_of_numeric idStr h⟩
  · intro hp
    refine ⟨?_, ?_, ?_⟩
    · simp [getByIdOutcome, hp]
    · simp [deleteOutcome, hp]
    · intro d now
      simp [updateOutcome, hp]
  · intro n hp
    refine ⟨?_, ?_, ?_, ?_⟩
    · intro hf
      simp [getByIdOutcome, hp, hf]
    · intro r hf
      simp [getByIdOutcome, hp, hf]
    · intro hf
      have hf0 : rows.find? (fun r => ((r.id : Int) == n)) = none := hf
      have hall : ∀ r ∈ rows, (!((r.id : Int) == n)) = true := by
        intro r hr
        have hne := List.find?_eq_none.mp hf0 r hr
        simp [Bool.eq_false_iff.mpr hne]
      have hfil : rows.filter (fun r => !((r.id : Int) == n)) = rows :=
        List.filter_eq_self.mpr hall
      constructor
      · simp [deleteOutcome, hp, hfil]
      · intro d now
        have hupd : updateResI rows n d now = (rows, none) := by
          simp [updateResI, hf]
        simp [updateOutcome, hp, hupd]
    · intro r hf
      have hf0 : rows.find? (fun r => ((r.id : Int) == n)) = some r := hf
      have hmem : r ∈ rows := List.mem_of_find?_eq_some hf0
      have hpr : ((r.id : Int) == n) = true := by
        have h2 := List.find?_some hf0
        exact h2
      constructor
      · have hlt : (rows.filter (fun r => !((r.id : Int) == n))).length < rows.length :=
          List.length_filter_lt_length_iff_exists.mpr ⟨r, hmem, by simp [hpr]⟩
        have hbe : ((rows.filter (fun r => !((r.id : Int) == n))).length
            == rows.length) = false := by
          simp only [beq_eq_false_iff_ne, ne_eq]
          omega
        simp [deleteOutcome, hp, hbe]
      · intro d now
        by_cases hc : (updFieldCount d == 0) = true
        · have hupd : updateResI rows n d now = (rows, some r) := by
            simp [updateResI, hf, hc]
          exact ⟨r, by simp [updateOutcome, hp, hupd]⟩
        · have hc' : (updFieldCount d == 0) = false := Bool.eq_false_iff.mpr hc
          have hm := findById_map_upd rows n d now r hf
          have hupd2 : (updateResI rows n d now).2 = some (applyUpdate r d now) := by
            simp only [updateResI, hf, hc', Bool.false_eq_true, if_false]
            exact hm
          exact ⟨applyUpdate r d now, by simp [updateOutcome, hp, hupd2]⟩

/-- Concrete instantiation of `c7_theorem`: a NaN id is rejected with the
store untouched, a numeric id parses, and a parsed id present in the
store answers 200 for get and delete. -/
theorem c7_theorem_witness :
    parseIntJS "abc" = none ∧
    getByIdOutcome [c7Row] "abc" = .badId ∧
    deleteOutcome [c7Row] "abc" = ([c7Row], .badId) ∧
    isNumericId "12" = true ∧ (∃ n, parseIntJS "12" = some n) ∧
    getByIdOutcome [c7Row] "12" = .ok (some c7Row) ∧
    (deleteOutcome [c7Row] "12").2 = .ok none := by
  have h1 : parseIntJS "abc" = none := by decide
  have hb := (c7_theorem [c7Row] "abc").1 h1
  have hn := (c7_theorem [c7Row] "12").2.2 (by decide)
  have h12 : parseIntJS "12" = some 12 := by decide
  have hfind : findById [c7Row] 12 = some c7Row := by decide
  have hp2 := (c7_theorem [c7Row] "12").2.1 12 h12
  exact ⟨h1, hb.1, hb.2.1, by decide, hn,
    hp2.2.1 c7Row hfind, (hp2.2.2.2 c7Row hfind).1⟩

/-! ### Claim C9: fixed-window rate limiter -/

/-- The window length configured in server.ts: `windowMs: 15 * 60 * 1000`. -/
def rlWindowMs : Nat := 15 * 60 * 1000

/-- The cap configured in server.ts: `max: 100`. -/
def rlMax : Nat := 100

/-- Counter of one client: hit count and window expiry time (ms). -/
structure RLState where
  count : Nat
  expiry : Nat
deriving DecidableEq, Repr

/-- Modelled from the spec: the fixed-window counter of the
`express-rate-limit` middleware (library code, not in the repository
sources; §4.5 of the spec): on a request at time `t`, an absent or
expired counter is created as 1 with expiry `t + windowMs` and the
request passes; otherwise the counter is incremented and the request
passes iff the count stays within the cap. -/
def rlStep (st : Option RLState) (t : Nat) : Bool × Option RLState :=
  match st with
  | none => (true, some { count := 1, expiry := t + rlWindowMs })
  | some s =>
    if s.expiry ≤ t then (true, some { count := 1, expiry := t + rlWindowMs })
    else (decide (s.count + 1 ≤ rlMax), some { count := s.count + 1, expiry := s.expiry })

/-- The pass/reject answers for a sequence of request times. -/
def rlRun (st : Option RLState) : List Nat → List Bool
  | [] => []
  | t :: ts => (rlStep st t).1 :: rlRun (rlStep st t).2 ts

theorem rlRun_in_window (ts : List Nat) (n exp : Nat)
    (h : ∀ t ∈ ts, t < exp) :
    rlRun (some { count := n, expiry := exp }) ts =
      (List.range ts.length).map (fun k => decide (n + 1 + k ≤ rlMax)) := by
  induction ts generalizing n with
  | nil => rfl
  | cons t ts ih =>
    have ht : t < exp := h t (by simp)
    simp only [rlRun, rlStep]
    rw [if_neg (by omega)]
    rw [List.length_cons, List.range_succ_eq_map, List.map_cons, List.map_map]
    have hfun : ((fun k => decide (n + 1 + k ≤ rlMax)) ∘ Nat.succ)
        = (fun k : Nat => decide (n + 1 + 1 + k ≤ rlMax)) := by
      funext k
      show decide (n + 1 + (k + 1) ≤ rlMax) = decide (n + 1 + 1 + k ≤ rlMax)
      have he : n + 1 + (k + 1) = n + 1 + 1 + k := by omega
      rw [he]
    rw [hfun, ih (n + 1) (fun t' ht' => h t' (List.mem_cons_of_mem t ht'))]

/-- Claim C9: starting from an absent counter, with every later request
inside the window opened by the first request, the `k`-th answer (from
1) is pass exactly when `k ≤ 100` — so requests 1..100 pass and request
101 and all later ones in the window are rejected; and any request at or
after the expiry of a counter is treated as a fresh first request and passes,
restarting the window. -/
theorem c9_theorem (t0 : Nat) (ts : List Nat)
    (h : ∀ t ∈ ts, t < t0 + rlWindowMs) :
    rlRun none (t0 :: ts) =
      (List.range (ts.length + 1)).map (fun k => decide (k + 1 ≤ rlMax)) ∧
    (∀ c exp t, exp ≤ t →
      rlStep (some { count := c, expiry := exp }) t =
        (true, some { count := 1, expiry := t + rlWindowMs })) ∧
    (100 ≤ ts.length → (rlRun none (t0 :: ts))[100]? = some false) := by
  have hmain : rlRun none (t0 :: ts) =
      (List.range (ts.length + 1)).map (fun k => decide (k + 1 ≤ rlMax)) := by
    simp only [rlRun, rlStep]
    rw [rlRun_in_window ts 1 (t0 + rlWindowMs) h]
    rw [List.range_succ_eq_map, List.map_cons, List.map_map]
    have hfun : ((fun k => decide (k + 1 ≤ rlMax)) ∘ Nat.succ)
        = (fun k : Nat => decide (1 + 1 + k ≤ rlMax)) := by
      funext k
      show decide (k + 1 + 1 ≤ rlMax) = decide (1 + 1 + k ≤ rlMax)
      have he : k + 1 + 1 = 1 + 1 + k := by omega
      rw [he]
    rw [hfun]
    refine congrArg₂ List.cons ?_ rfl
    decide
  refine ⟨hmain, ?_, ?_⟩
  · intro c exp t hexp
    simp only [rlStep]
    rw [if_pos hexp]
  · intro hlen
    rw [hmain, List.getElem?_map, List.getElem?_range (by omega)]
    rfl

/-- Concrete instantiation of `c9_theorem`: 121 requests at time 0; the
101st answer is a rejection. -/
theorem c9_theorem_witness :
    (∀ t ∈ List.replicate 120 0, t < 0 + rlWindowMs) ∧
    (rlRun none (0 :: List.replicate 120 0))[100]? = some false := by
  have h : ∀ t ∈ List.replicate 120 0, t < 0 + rlWindowMs := by decide
  exact ⟨h, (c9_theorem 0 (List.replicate 120 0) h).2.2 (by decide)⟩

end CrudService
